import Mathlib

/-!
# Verification of the finance-saas-app storage core

A shallow embedding of the repository's storage engine (`src/js/database.js`,
class `FinanceDB`), encryption codec (`src/unnamed/part_001`, class
`EncryptionManager`) and access-filtering layer (`src/unnamed/part_000`,
class `CustomerManager`), together with theorems settling the specification
claims about tenant scoping, audit atomicity, encryption round-trips,
readiness gating, self-healing and restore semantics.

Modelling conventions:
* JavaScript byte arrays (`Uint8Array`) are modelled as `List Nat`; text
  payloads entering the codec are modelled by their encoded byte sequences
  (`TextEncoder`/`TextDecoder` form a bijection between strings and their
  UTF-8 bytes and are therefore elided by working on byte sequences
  directly).  `arrayBufferToBase64`/`base64ToArrayBuffer` are mutually
  inverse bijections between byte arrays and their base64 text; blobs are
  represented by the byte arrays themselves.
* The Web Crypto primitives (`PBKDF2` key derivation and `AES-GCM`) are
  platform code, not repository code.  They are modelled by concrete
  executable functions that keep exactly the structure the repository
  relies on: key derivation is a pure function of (password, salt); the
  AEAD produces `ciphertext ++ tag`, decryption re-derives the keystream,
  checks the tag, and fails (`none`, the analogue of the thrown
  `OperationError`) on tag mismatch.
* JavaScript `null`/`undefined` fields are modelled with `Option`;
  timestamps (`Date.now()`) are threaded as explicit `Nat` parameters.
-/

/-! Byte-level model of the Web Crypto primitives used by the encryption manager. -/

/-- A concrete mixing fold, the executable stand-in for the cryptographic
compression inside the modelled platform primitives. -/
def mix (l : List Nat) : Nat :=
  l.foldl (fun a b => a * 131 + b + 1) 7

/-- Modelled platform primitive (PBKDF2, 100000 iterations, SHA-256, as
invoked by `EncryptionManager.deriveKey`): a key that is a pure function of
password and salt.  The `256` separators keep the encoding of the two
components prefix-free. -/
def deriveKey (password salt : List Nat) : List Nat :=
  password ++ [256] ++ salt

/-- Modelled platform primitive: the CTR keystream of AES-GCM, a pure
function of key, iv and requested length. -/
def keystream (key iv : List Nat) (n : Nat) : List Nat :=
  (List.range n).map (fun j => mix key * 65599 + mix iv * 257 + j)

/-- Modelled platform primitive: counter-mode encryption (byte-wise
combination of data with the keystream). -/
def ctrEncrypt (key iv data : List Nat) : List Nat :=
  List.zipWith (fun d k => d + k) data (keystream key iv data.length)

/-- Modelled platform primitive: counter-mode decryption, the inverse
combination. -/
def ctrDecrypt (key iv ct : List Nat) : List Nat :=
  List.zipWith (fun c k => c - k) ct (keystream key iv ct.length)

/-- Modelled platform primitive: the GCM authentication tag, a pure function
of key, iv and ciphertext (modelled as a single-element list rather than 16
bytes; only its length being fixed and its dependence on all three inputs
matter to the repository code). -/
def mkTag (key iv ct : List Nat) : List Nat :=
  [mix (key ++ [256] ++ iv ++ [256] ++ ct)]

/-- Modelled platform primitive `crypto.subtle.encrypt` (AES-GCM): returns
`ciphertext ++ tag`. -/
def aeadEncrypt (key iv data : List Nat) : List Nat :=
  let ct := ctrEncrypt key iv data
  ct ++ mkTag key iv ct

/-- Modelled platform primitive `crypto.subtle.decrypt` (AES-GCM): splits
off the trailing tag, recomputes it, and fails (`none`, the model of the
thrown `OperationError`) if the tag does not match. -/
def aeadDecrypt (key iv blob : List Nat) : Option (List Nat) :=
  let ct := blob.take (blob.length - 1)
  let tg := blob.drop (blob.length - 1)
  if tg = mkTag key iv ct then some (ctrDecrypt key iv ct) else none

/-! Model of class `EncryptionManager` (src/unnamed/part_001). -/

/-- Source `EncryptionManager.encrypt` (src/unnamed/part_001 lines 36-61): draws a
fresh 16-byte salt and 12-byte iv (`crypto.getRandomValues`; the random
draws are threaded as explicit arguments `salt`, `iv`), derives the key,
AEAD-encrypts, and returns the blob `salt ++ iv ++ ciphertext‖tag`.
The `catch` branch (`return text; // Fallback to unencrypted`) is
unreachable in the model because the modelled primitive is total. -/
def emEncrypt (text password salt iv : List Nat) : List Nat :=
  salt ++ iv ++ aeadEncrypt (deriveKey password salt) iv text

/-- Source `EncryptionManager.decrypt` (src/unnamed/part_001 lines 64-84): slices
the blob into `salt = blob[0..16)`, `iv = blob[16..28)`, `encrypted =
blob[28..)`, re-derives the key and AEAD-decrypts.  The `catch` branch
returns the *input blob unchanged* (`return encryptedData; // Return as-is
if decryption fails`): there is no error channel in the return type, which
is exactly the behaviour the specification flags. -/
def emDecrypt (blob password : List Nat) : List Nat :=
  let salt := blob.take 16
  let iv := (blob.drop 16).take 12
  let encrypted := blob.drop 28
  match aeadDecrypt (deriveKey password salt) iv encrypted with
  | some plain => plain
  | none => blob

/-! Model of `FinanceDB.encrypt` (src/js/database.js lines 100-105).

`encrypt(data)` is `btoa(JSON.stringify(data))`: a deterministic,
reversible text encoding with no passphrase, salt or nonce input.
`JSON.stringify` of a string value is modelled as quoting (escaping elided)
and `btoa` is a bijection on text, elided; only determinism and
reversibility of the composite are relied upon. -/
def fdbEncrypt (data : String) : String :=
  "\x22" ++ data ++ "\x22"

/-- Source `FinanceDB.decrypt` (src/js/database.js lines 108-116): `atob` then
`JSON.parse`, with the `catch` branch returning `null` (modelled `none`). -/
def fdbDecrypt (s : String) : Option String :=
  if s.length ≥ 2 ∧ s.take 1 = "\x22" ∧ s.takeRight 1 = "\x22" then
    some ((s.drop 1).dropRight 1)
  else
    none

/-! Data model of the storage engine (src/js/database.js). -/

/-- The authenticated caller identity consumed by the core (`this.currentUser`,
set through `FinanceDB.setCurrentUser` / `authSystem.getCurrentUser()`).
Roles in the source are the strings `masterAdmin` (the spec's root-admin),
`financer` (tenant-owner; its tenant id is its own `id`) and `employee`
(tenant-member; its tenant id is its `financerId`). -/
structure User where
  id : String
  name : String
  role : String
  financerId : Option String
deriving DecidableEq

/-- A stored record.  The engine is schema-free beyond the reserved fields;
the business payload is abstracted to `payload`.  `financerId` is the
tenant field consulted by every access filter; `id` is the primary key
(`keyPath: 'id'`). -/
structure DBRecord where
  id : Nat
  financerId : Option String := none
  payload : String := ""
  encrypted : Bool := false
  timestamp : Nat := 0
  createdBy : Option String := none
  updatedAt : Option Nat := none
  updatedBy : Option String := none
deriving DecidableEq

/-- One entry of the `auditLog` store, as built by `FinanceDB.logAudit`
(src/js/database.js lines 216-231; the redundant `datetime` locale string is
elided). -/
structure AuditEntry where
  userId : Option String
  userName : Option String
  userRole : Option String
  action : String
  target : String
  targetId : String
  timestamp : Nat
deriving DecidableEq

/-- The error outcomes of the engine's promise-based calls.
`nullHandleTypeError` is the raw `TypeError` raised by dereferencing
`this.db` while it is still `null`; `constraintError` is IndexedDB's
rejection of `store.add` on an existing key.  `notReadyError` is the
specification's `NotReadyError`, included so that theorems can state that
the code never produces it. -/
inductive DBError where
  | nullHandleTypeError
  | constraintError
  | notReadyError
deriving DecidableEq

/-- The mutable state of the `FinanceDB` singleton: `db` is the IndexedDB
handle (`none` until `open` succeeds), `version` the requested schema
version, `storeNames` the observed `objectStoreNames`, `stores` the record
contents per store, `audit` the `auditLog` store (kept apart from `stores`
because its entries have the `AuditEntry` shape), and `currentUser` the
ambient identity. -/
structure DBState where
  db : Option Unit
  version : Nat
  storeNames : List String
  stores : List (String × List DBRecord)
  audit : List AuditEntry
  currentUser : Option User
deriving DecidableEq

/-- Contents of one object store (empty when the store holds no records). -/
def storeGet : List (String × List DBRecord) → String → List DBRecord
  | [], _ => []
  | (k, v) :: rest, name => if k = name then v else storeGet rest name

/-- Replace (or create) the contents of one object store. -/
def storeSet : List (String × List DBRecord) → String → List DBRecord → List (String × List DBRecord)
  | [], name, rs => [(name, rs)]
  | (k, v) :: rest, name, rs =>
    if k = name then (name, rs) :: rest else (k, v) :: storeSet rest name rs

/-- The five stores whose presence `runSelfHealing` checks. -/
def selfHealStores : List String :=
  ["users", "financers", "customers", "payments", "seizures"]

/-- The six stores created by `init`'s `onupgradeneeded` handler. -/
def schemaStores : List String :=
  ["users", "financers", "customers", "payments", "seizures", "auditLog"]

/-- Insert each name of `l` (in order) into `ns` unless already present:
the cumulative effect of the `if (!contains) createObjectStore` blocks. -/
def insertStores (ns l : List String) : List String :=
  l.foldl (fun acc n => if acc.contains n then acc else acc ++ [n]) ns

/-- Source `FinanceDB.init` (src/js/database.js lines 21-90): opens the database at
the current `this.version`; the `onupgradeneeded` handler creates every
schema store that does not yet exist, and on success the handle is set.
(The secondary indexes created alongside the stores are not consulted by
any claim and are elided; record contents are untouched by an upgrade.) -/
def fdbInit (s : DBState) : DBState :=
  { s with db := some (), storeNames := insertStores s.storeNames schemaStores }

/-- The audit entry assembled by `FinanceDB.logAudit`. -/
def mkAuditEntry (user : Option User) (action target targetId : String) (now : Nat) : AuditEntry :=
  { userId := user.map (·.id)
    userName := user.map (·.name)
    userRole := user.map (·.role)
    action := action
    target := target
    targetId := targetId
    timestamp := now }

/-- Source `FinanceDB.logAudit` (src/js/database.js lines 216-231): builds the
entry from the ambient `currentUser` and appends it to the `auditLog`
store.  It opens a transaction on `this.db` with no readiness guard, so a
`null` handle raises a raw `TypeError`. -/
def fdbLogAudit (s : DBState) (action target targetId : String) (now : Nat) :
    DBState × Except DBError Unit :=
  match s.db with
  | none => (s, .error .nullHandleTypeError)
  | some _ =>
    ({ s with audit := s.audit ++ [mkAuditEntry s.currentUser action target targetId now] },
     .ok ())

/-- The stamped record stored by `FinanceDB.add`:
`{...data, _encrypted: true, _timestamp: Date.now(), _createdBy: this.currentUser?.id}`. -/
def stampCreate (data : DBRecord) (user : Option User) (now : Nat) : DBRecord :=
  { data with encrypted := true, timestamp := now, createdBy := user.map (·.id) }

/-- The audit target id of `FinanceDB.add`: `data.id || 'new'` (a zero key is
falsy in JavaScript). -/
def addTargetId (data : DBRecord) : String :=
  if data.id = 0 then "new" else toString data.id

/-- Source `FinanceDB.add` (src/js/database.js lines 119-146): stamps the record,
calls `logAudit('ADD', ...)` *before* issuing `store.add`, then attempts the
insert, which rejects with a `ConstraintError` when a record with the same
key already exists.  A failed insert does not remove the audit entry and a
failed audit would not stop the insert: the two effects are issued in
independent transactions.  (The body dereferences `this.db` like every
other method; the `await this.waitForReady()` placed inside the promise
executor is syntactically malformed and provides no readiness guarantee.) -/
def fdbAdd (s : DBState) (storeName : String) (data : DBRecord) (now : Nat) :
    DBState × Except DBError Nat :=
  match s.db with
  | none => (s, .error .nullHandleTypeError)
  | some _ =>
    let stamped := stampCreate data s.currentUser now
    let s₁ := { s with
      audit := s.audit ++ [mkAuditEntry s.currentUser "ADD" storeName (addTargetId data) now] }
    let rs := storeGet s₁.stores storeName
    if rs.any (fun r => r.id = data.id) then
      (s₁, .error .constraintError)
    else
      ({ s₁ with stores := storeSet s₁.stores storeName (rs ++ [stamped]) }, .ok stamped.id)

/-- Whether the `financerId` argument of `getAll` is truthy (a `null`
default or an empty string disables the filter). -/
def truthyStr : Option String → Bool
  | none => false
  | some f => f ≠ ""

/-- The value `this.currentUser?.role` as an optional string. -/
def optRole (u : Option User) : Option String :=
  u.map (·.role)

/-- Source `FinanceDB.getAll` (src/js/database.js lines 149-170): reads every
record of the store and filters by `r.financerId === financerId` only when
the `financerId` argument is truthy and the ambient role is not
`masterAdmin`; otherwise the results are returned unfiltered. -/
def fdbGetAll (s : DBState) (storeName : String) (financerId : Option String) :
    Except DBError (List DBRecord) :=
  match s.db with
  | none => .error .nullHandleTypeError
  | some _ =>
    let results := storeGet s.stores storeName
    if truthyStr financerId ∧ optRole s.currentUser ≠ some "masterAdmin" then
      .ok (results.filter (fun r => r.financerId = financerId))
    else
      .ok results

/-- Source `FinanceDB.update` (src/js/database.js lines 173-193): stamps
`_updatedAt`/`_updatedBy`, calls `logAudit('UPDATE', ...)`, then `store.put`
(an upsert).  No readiness guard: a `null` handle raises `TypeError`. -/
def fdbUpdate (s : DBState) (storeName : String) (data : DBRecord) (now : Nat) :
    DBState × Except DBError Nat :=
  match s.db with
  | none => (s, .error .nullHandleTypeError)
  | some _ =>
    let stamped := { data with updatedAt := some now, updatedBy := (s.currentUser).map (·.id) }
    let s₁ := { s with
      audit := s.audit ++ [mkAuditEntry s.currentUser "UPDATE" storeName (toString data.id) now] }
    let rs := storeGet s₁.stores storeName
    let rs' := if rs.any (fun r => r.id = stamped.id)
      then rs.map (fun r => if r.id = stamped.id then stamped else r)
      else rs ++ [stamped]
    ({ s₁ with stores := storeSet s₁.stores storeName rs' }, .ok stamped.id)

/-- Source `FinanceDB.delete` (src/js/database.js lines 196-213): calls
`logAudit('DELETE', ...)` then `store.delete(id)`.  No readiness guard. -/
def fdbDelete (s : DBState) (storeName : String) (id : Nat) (now : Nat) :
    DBState × Except DBError Unit :=
  match s.db with
  | none => (s, .error .nullHandleTypeError)
  | some _ =>
    let s₁ := { s with
      audit := s.audit ++ [mkAuditEntry s.currentUser "DELETE" storeName (toString id) now] }
    let rs := storeGet s₁.stores storeName
    ({ s₁ with stores := storeSet s₁.stores storeName (rs.filter (fun r => r.id ≠ id)) }, .ok ())

/-- Source `FinanceDB.runSelfHealing` (src/js/database.js lines 242-268): with no
handle it just re-runs `init`; otherwise it walks the five expected stores
and, for each missing one, increments `this.version` and invokes `init()`.
`init()` is not awaited inside the loop, so every containment check runs
against the original store set before any upgrade lands: the version grows
by the number of missing stores, after which the (idempotent) upgrade
provisions them all. -/
def runSelfHealing (s : DBState) : DBState :=
  if s.db.isNone then fdbInit s
  else
    let missing := selfHealStores.filter (fun n => ¬ s.storeNames.contains n)
    if missing.isEmpty then s
    else fdbInit { s with version := s.version + missing.length }

/-- Inner loop of `FinanceDB.restore` over one store's snapshot records:
each record is replayed through `this.add`; the surrounding `try/catch`
turns the first rejected `add` into an immediate `return false`. -/
def restoreRecords (s : DBState) (storeName : String) (now : Nat) :
    List DBRecord → DBState × Bool
  | [] => (s, true)
  | r :: rs =>
    match fdbAdd s storeName r now with
    | (s', .error _) => (s', false)
    | (s', .ok _) => restoreRecords s' storeName now rs

/-- Source `FinanceDB.restore` (src/js/database.js lines 327-343): replays every
store of the backup through `add`, aborting with `false` at the first
failure and returning `true` otherwise.  There is no per-collection report
and no skip-and-continue. -/
def fdbRestore (s : DBState) (now : Nat) :
    List (String × List DBRecord) → DBState × Bool
  | [] => (s, true)
  | (name, rs) :: rest =>
    match restoreRecords s name now rs with
    | (s', false) => (s', false)
    | (s', true) => fdbRestore s' now rest

/-! Model of class `CustomerManager` (src/unnamed/part_000). -/

/-- Source `CustomerManager.applyRoleBasedFilter` (src/unnamed/part_000 lines
736-759): with no authenticated identity every list maps to `[]`;
`masterAdmin` sees everything; `financer` keeps records with
`customer.financerId === this.currentUser.id`; `employee` keeps records
with `customer.financerId === this.currentUser.financerId` (note that two
`undefined` fields compare equal, captured by `Option` equality); any other
role yields `[]`. -/
def applyRoleBasedFilter (currentUser : Option User) (customers : List DBRecord) :
    List DBRecord :=
  match currentUser with
  | none => []
  | some user =>
    if user.role = "masterAdmin" then customers
    else if user.role = "financer" then
      customers.filter (fun c => c.financerId = some user.id)
    else if user.role = "employee" then
      customers.filter (fun c => c.financerId = user.financerId)
    else []

/-- Source `CustomerManager.canAccessCustomer` (src/unnamed/part_000 lines
761-780): the per-record access gate, `false` with no identity, mirroring
`applyRoleBasedFilter`'s role cases. -/
def canAccessCustomer (currentUser : Option User) (customer : DBRecord) : Bool :=
  match currentUser with
  | none => false
  | some user =>
    if user.role = "masterAdmin" then true
    else if user.role = "financer" then customer.financerId = some user.id
    else if user.role = "employee" then customer.financerId = user.financerId
    else false

/-- Modelled from the spec: `CustomerManager.getCustomer` invokes
`financeDB.get('customers', customerId)`, but class `FinanceDB`
(src/js/database.js) declares no `get` method — the keyed single-record
read is repository code missing from the sources.  Per the spec's
`getRecord` contract it "returns the decrypted record or `None` if absent";
the access filtering that the spec folds into `getRecord` is performed
separately by the caller through `canAccessCustomer`, so the missing
method is modelled as the bare primary-key lookup. -/
def fdbGet (records : List DBRecord) (id : Nat) : Option DBRecord :=
  records.find? (fun r => r.id = id)

/-- The result object of the `CustomerManager` read calls:
`{success, message?, customer?}`. -/
structure CMResult where
  success : Bool
  message : Option String
  customer : Option DBRecord
deriving DecidableEq

/-- Source `CustomerManager.getCustomer` (src/unnamed/part_000 lines 371-404):
looks the record up by id; an absent record yields
`{success: false, message: 'Customer not found'}`; a present record that
fails `canAccessCustomer` yields `{success: false, message: 'Permission
denied'}`; otherwise the record is returned. -/
def getCustomer (currentUser : Option User) (customers : List DBRecord) (customerId : Nat) :
    CMResult :=
  match fdbGet customers customerId with
  | none => ⟨false, some "Customer not found", none⟩
  | some c =>
    if canAccessCustomer currentUser c then ⟨true, none, some c⟩
    else ⟨false, some "Permission denied", none⟩

/-! Decidability of call outcomes, and concrete fixtures. -/

/-- Decidable equality of call outcomes. -/
def exceptDecEq {ε α : Type} [DecidableEq ε] [DecidableEq α] :
    DecidableEq (Except ε α) := fun a b =>
  match a, b with
  | .error e, .error f =>
    if h : e = f then isTrue (congrArg Except.error h)
    else isFalse (fun hh => h (Except.error.inj hh))
  | .error _, .ok _ => isFalse (fun hh => Except.noConfusion hh)
  | .ok _, .error _ => isFalse (fun hh => Except.noConfusion hh)
  | .ok x, .ok y =>
    if h : x = y then isTrue (congrArg Except.ok h)
    else isFalse (fun hh => h (Except.ok.inj hh))

instance {ε α : Type} [DecidableEq ε] [DecidableEq α] : DecidableEq (Except ε α) :=
  exceptDecEq

/-- A `financer` identity: per the source's role model it is the
tenant-owner of the tenant identified by its own `id`, here `"t1"`. -/
def financerOwner : User := ⟨"t1", "owner one", "financer", none⟩

/-- A customer record belonging to tenant `"t1"`. -/
def ownRecord : DBRecord := ⟨1, some "t1", "own", false, 0, none, none, none⟩

/-- A customer record belonging to the foreign tenant `"t2"`. -/
def foreignRecord : DBRecord := ⟨2, some "t2", "foreign", false, 0, none, none, none⟩

/-- A ready engine whose `customers` store holds one `"t1"` and one `"t2"`
record, with the `"t1"` tenant-owner as the ambient identity. -/
def tenantState : DBState :=
  { db := some (), version := 1, storeNames := schemaStores,
    stores := [("customers", [ownRecord, foreignRecord])], audit := [],
    currentUser := some financerOwner }

/-- A record already persisted under primary key `5`. -/
def liveRecord : DBRecord := ⟨5, some "t1", "orig", true, 1, some "u1", none, none⟩

/-- A ready engine holding `liveRecord`, used to drive `add` into its
duplicate-key failure. -/
def dupState : DBState :=
  { db := some (), version := 1, storeNames := schemaStores,
    stores := [("customers", [liveRecord])], audit := [],
    currentUser := some financerOwner }

/-- A second record with the same primary key `5` as `liveRecord`. -/
def dupRecord : DBRecord := ⟨5, some "t1", "copy", false, 0, none, none, none⟩

/-- The live record in place before a `restore`. -/
def conflictLive : DBRecord := ⟨7, some "t1", "live", true, 1, none, none, none⟩

/-- A ready engine holding `conflictLive`. -/
def conflictState : DBState :=
  { db := some (), version := 1, storeNames := schemaStores,
    stores := [("customers", [conflictLive])], audit := [], currentUser := none }

/-- A snapshot whose first record collides with `conflictLive` on id `7`
and whose second record (id `8`) is new. -/
def conflictBackup : List (String × List DBRecord) :=
  [("customers", [⟨7, some "t1", "snap", false, 0, none, none, none⟩,
                  ⟨8, some "t1", "other", false, 0, none, none, none⟩])]

/-- The engine before `open()` has completed: `this.db` is still `null`. -/
def unreadyState : DBState :=
  { db := none, version := 1, storeNames := [], stores := [], audit := [],
    currentUser := none }

/-- A ready engine whose observed schema is missing exactly one of the five
monitored stores (`seizures`). -/
def oneMissingState : DBState :=
  { db := some (), version := 3,
    storeNames := ["users", "financers", "customers", "payments", "auditLog"],
    stores := [], audit := [], currentUser := none }

/-- A ready engine whose observed schema is missing exactly one of the six
schema collections — and it is `auditLog`, the one collection that
`runSelfHealing`'s five-store checklist does not monitor. -/
def auditLogMissingState : DBState :=
  { db := some (), version := 3,
    storeNames := ["users", "financers", "customers", "payments", "seizures"],
    stores := [], audit := [], currentUser := none }

/-- A customer of tenant `"t9"`, invisible to `financerOwner`. -/
def deniedCustomer : DBRecord := ⟨3, some "t9", "zen", false, 0, none, none, none⟩

/-! Helper lemmas about the codec model. -/

theorem take_append_len (a b : List Nat) (n : Nat) (h : a.length = n) :
    (a ++ b).take n = a := by
  rw [← h]; exact List.take_left a b

theorem drop_append_len (a b : List Nat) (n : Nat) (h : a.length = n) :
    (a ++ b).drop n = b := by
  rw [← h]; exact List.drop_left a b

theorem keystream_length (key iv : List Nat) (n : Nat) :
    (keystream key iv n).length = n := by
  simp [keystream]

theorem zip_sub_add (d ks : List Nat) (h : d.length ≤ ks.length) :
    List.zipWith (fun c k => c - k) (List.zipWith (fun a b => a + b) d ks) ks = d := by
  induction d generalizing ks with
  | nil => simp
  | cons a d ih =>
    cases ks with
    | nil => simp at h
    | cons k ks =>
      simp only [List.zipWith, Nat.add_sub_cancel, List.cons.injEq, true_and]
      exact ih ks (by simpa using h)

theorem ctr_roundtrip (key iv data : List Nat) :
    ctrDecrypt key iv (ctrEncrypt key iv data) = data := by
  unfold ctrEncrypt ctrDecrypt
  have hlen : (List.zipWith (fun d k => d + k) data (keystream key iv data.length)).length
      = data.length := by
    simp [List.length_zipWith, keystream_length]
  rw [hlen]
  exact zip_sub_add data (keystream key iv data.length) (by simp [keystream_length])

theorem aead_roundtrip (key iv data : List Nat) :
    aeadDecrypt key iv (aeadEncrypt key iv data) = some data := by
  simp only [aeadEncrypt, aeadDecrypt]
  have hlen : (ctrEncrypt key iv data ++ mkTag key iv (ctrEncrypt key iv data)).length - 1
      = (ctrEncrypt key iv data).length := by
    simp [mkTag]
  rw [hlen, take_append_len _ _ _ rfl, drop_append_len _ _ _ rfl]
  simp [ctr_roundtrip]

theorem em_roundtrip (text password salt iv : List Nat)
    (hs : salt.length = 16) (hi : iv.length = 12) :
    emDecrypt (emEncrypt text password salt iv) password = text := by
  simp only [emEncrypt, emDecrypt, List.append_assoc]
  rw [take_append_len _ _ _ hs, drop_append_len _ _ _ hs, take_append_len _ _ _ hi,
    show (28 : Nat) = 16 + 12 from rfl, ← List.drop_drop,
    drop_append_len _ _ _ hs, drop_append_len _ _ _ hi, aead_roundtrip]

theorem emEncrypt_fresh_ne (text pw s1 i1 s2 i2 : List Nat)
    (hs1 : s1.length = 16) (hs2 : s2.length = 16)
    (hi1 : i1.length = 12) (hi2 : i2.length = 12)
    (hne : s1 ≠ s2 ∨ i1 ≠ i2) :
    emEncrypt text pw s1 i1 ≠ emEncrypt text pw s2 i2 := by
  intro h
  have hsalt : s1 = s2 := by
    have h16 := congrArg (List.take 16) h
    simpa only [emEncrypt, List.append_assoc, take_append_len _ _ _ hs1,
      take_append_len _ _ _ hs2] using h16
  have hiv : i1 = i2 := by
    have h12 := congrArg (fun l => (List.drop 16 l).take 12) h
    simpa only [emEncrypt, List.append_assoc, drop_append_len _ _ _ hs1,
      drop_append_len _ _ _ hs2, take_append_len _ _ _ hi1,
      take_append_len _ _ _ hi2] using h12
  rcases hne with hn | hn
  · exact hn hsalt
  · exact hn hiv

/-! Helper lemmas about the storage engine. -/

theorem storeGet_storeSet (stores : List (String × List DBRecord))
    (name name' : String) (rs : List DBRecord) :
    storeGet (storeSet stores name rs) name'
      = if name = name' then rs else storeGet stores name' := by
  induction stores with
  | nil => simp [storeSet, storeGet]
  | cons kv rest ih =>
    obtain ⟨k, v⟩ := kv
    by_cases hk : k = name
    · subst hk
      by_cases h' : k = name' <;> simp [storeSet, storeGet, h']
    · by_cases h' : k = name'
      · subst h'
        have hne : ¬ name = k := fun h => hk h.symm
        simp [storeSet, storeGet, hk, hne]
      · simp [storeSet, storeGet, hk, h', ih]

theorem fdbAdd_mem_preserved (s : DBState) (sn : String) (d : DBRecord) (now : Nat)
    (name : String) (r : DBRecord) (h : r ∈ storeGet s.stores name) :
    r ∈ storeGet (fdbAdd s sn d now).1.stores name := by
  unfold fdbAdd
  cases hdb : s.db with
  | none => exact h
  | some u =>
    dsimp only
    by_cases hdup : (storeGet s.stores sn).any (fun x => x.id = d.id)
    · simpa [hdup] using h
    · simp only [hdup, if_false, Bool.false_eq_true]
      rw [storeGet_storeSet]
      by_cases hn : sn = name
      · subst hn; simp only [if_pos rfl]; exact List.mem_append_left _ h
      · simpa [hn] using h

theorem restoreRecords_mem_preserved (rs : List DBRecord) (s : DBState) (sn : String)
    (now : Nat) (name : String) (r : DBRecord) (h : r ∈ storeGet s.stores name) :
    r ∈ storeGet (restoreRecords s sn now rs).1.stores name := by
  induction rs generalizing s with
  | nil => simpa [restoreRecords] using h
  | cons x xs ih =>
    simp only [restoreRecords]
    rcases hadd : fdbAdd s sn x now with ⟨s', res⟩
    have hmem : r ∈ storeGet s'.stores name := by
      have := fdbAdd_mem_preserved s sn x now name r h
      rwa [hadd] at this
    cases res with
    | error e => exact hmem
    | ok v => exact ih s' hmem

theorem fdbRestore_mem_preserved (backup : List (String × List DBRecord)) (s : DBState)
    (now : Nat) (name : String) (r : DBRecord) (h : r ∈ storeGet s.stores name) :
    r ∈ storeGet (fdbRestore s now backup).1.stores name := by
  induction backup generalizing s with
  | nil => simpa [fdbRestore] using h
  | cons kv rest ih =>
    obtain ⟨sn, rs⟩ := kv
    simp only [fdbRestore]
    rcases hrr : restoreRecords s sn now rs with ⟨s', b⟩
    have hmem : r ∈ storeGet s'.stores name := by
      have := restoreRecords_mem_preserved rs s sn now name r h
      rwa [hrr] at this
    cases b with
    | false => exact hmem
    | true => exact ih s' hmem

theorem insertStores_mem_mono (l : List String) (ns : List String) (n : String)
    (h : n ∈ ns) : n ∈ insertStores ns l := by
  induction l generalizing ns with
  | nil => simpa [insertStores] using h
  | cons x t ih =>
    simp only [insertStores, List.foldl]
    by_cases hc : x ∈ ns
    · rw [if_pos (by simpa using hc)]
      exact ih ns h
    · rw [if_neg (by simpa using hc)]
      exact ih (ns ++ [x]) (List.mem_append_left _ h)

theorem insertStores_mem_of_mem (l : List String) (ns : List String) (n : String)
    (h : n ∈ l) : n ∈ insertStores ns l := by
  induction l generalizing ns with
  | nil => simp at h
  | cons x t ih =>
    simp only [insertStores, List.foldl]
    rcases List.mem_cons.mp h with rfl | ht
    · by_cases hc : n ∈ ns
      · rw [if_pos (by simpa using hc)]
        exact insertStores_mem_mono t ns n hc
      · rw [if_neg (by simpa using hc)]
        exact insertStores_mem_mono t (ns ++ [n]) n (by simp)
    · by_cases hc : x ∈ ns
      · rw [if_pos (by simpa using hc)]
        exact ih ns ht
      · rw [if_neg (by simpa using hc)]
        exact ih (ns ++ [x]) ht

theorem selfHeal_sub_schema (n : String) (hn : n ∈ selfHealStores) :
    n ∈ schemaStores := by
  simp [selfHealStores] at hn
  rcases hn with rfl | rfl | rfl | rfl | rfl <;> simp [schemaStores]

/-! Claim theorems about the encryption codec. -/

/-- C1: on an authentication failure (here: a blob decrypted under a
different passphrase, so the recomputed tag cannot match),
`EncryptionManager.decrypt` does not fail with a typed `AuthenticationError`
— its `catch` branch returns the input blob unchanged
(`return encryptedData; // Return as-is if decryption fails`), the
unauthenticated pass-through the claim forbids; symmetrically `encrypt`'s
failure branch is `return text; // Fallback to unencrypted`. -/
theorem emDecrypt_passthrough_on_auth_failure :
    emDecrypt (emEncrypt [104, 105] [97] (List.range 16) (List.range 12)) [98]
      = emEncrypt [104, 105] [97] (List.range 16) (List.range 12) := by
  decide

/-- C3: with matching passphrases the codec round-trips
(`decrypt(encrypt(x, p), p) = x` for the 16-byte salts and 12-byte ivs the
source draws), but under a different passphrase `decrypt` does not fail
with `AuthenticationError`: at the concrete input below it returns the
ciphertext blob itself as its value. -/
theorem em_roundtrip_and_wrongpass_passthrough :
    (∀ text password salt iv : List Nat, salt.length = 16 → iv.length = 12 →
      emDecrypt (emEncrypt text password salt iv) password = text)
    ∧ emDecrypt (emEncrypt [1, 2, 3] [5] (List.range 16) (List.range 12)) [6]
        = emEncrypt [1, 2, 3] [5] (List.range 16) (List.range 12) :=
  ⟨fun t p s i hs hi => em_roundtrip t p s i hs hi, by decide⟩

/-- Witness for the round-trip half of the C3 theorem at a concrete
plaintext, passphrase, salt and iv. -/
theorem em_roundtrip_and_wrongpass_passthrough_witness :
    emDecrypt (emEncrypt [9] [7] (List.range 16) (List.range 12)) [7] = [9] :=
  em_roundtrip_and_wrongpass_passthrough.1 [9] [7] (List.range 16) (List.range 12)
    (by decide) (by decide)

/-- C9: `EncryptionManager.encrypt` prepends the freshly drawn salt and iv
to the blob, so two calls whose random draws differ produce different
blobs; `FinanceDB.encrypt` (the persistence path cited by the claim) draws
no randomness at all — it is a deterministic function of the plaintext, so
two calls on the same input produce the identical blob. -/
theorem emEncrypt_fresh_blobs_differ_fdbEncrypt_deterministic :
    (∀ text pw s1 i1 s2 i2 : List Nat, s1.length = 16 → s2.length = 16 →
      i1.length = 12 → i2.length = 12 → (s1 ≠ s2 ∨ i1 ≠ i2) →
      emEncrypt text pw s1 i1 ≠ emEncrypt text pw s2 i2)
    ∧ fdbEncrypt "acme" = fdbEncrypt "acme" :=
  ⟨emEncrypt_fresh_ne, rfl⟩

/-- Witness for the freshness half of the C9 theorem: two draws differing
in the salt give different blobs. -/
theorem emEncrypt_fresh_blobs_differ_witness :
    emEncrypt [1] [2] (List.range 16) (List.range 12)
      ≠ emEncrypt [1] [2] (List.map (fun x => x + 1) (List.range 16)) (List.range 12) :=
  emEncrypt_fresh_blobs_differ_fdbEncrypt_deterministic.1 [1] [2]
    (List.range 16) (List.range 12) (List.map (fun x => x + 1) (List.range 16))
    (List.range 12) (by decide) (by decide) (by decide) (by decide)
    (Or.inl (by decide))

/-- C2 counterexample: the engine's `getAll` read path does not tenant-scope
by the caller's identity.  With the `"t1"` tenant-owner (`financer`) as the
ambient identity and the `financerId` argument left at its `null` default,
`getAll` returns the whole store, including the foreign record of tenant
`"t2"`. -/
theorem getAll_null_arg_leaks_foreign_tenant :
    tenantState.currentUser = some financerOwner
    ∧ financerOwner.role = "financer"
    ∧ fdbGetAll tenantState "customers" none = .ok [ownRecord, foreignRecord]
    ∧ foreignRecord.financerId ≠ some financerOwner.id := by
  decide

/-- C2 (amended): `FinanceDB.getAll` filters only by its `financerId`
argument: when the argument is truthy and the ambient role is not
`masterAdmin`, every returned record carries exactly that `financerId`;
when the argument is `null` the store contents are returned unfiltered. -/
theorem getAll_scopes_by_argument_only (s : DBState) (name f : String)
    (hdb : s.db = some ()) (hf : f ≠ "")
    (hrole : optRole s.currentUser ≠ some "masterAdmin") :
    (∀ rs, fdbGetAll s name (some f) = .ok rs → ∀ r ∈ rs, r.financerId = some f)
    ∧ fdbGetAll s name none = .ok (storeGet s.stores name) := by
  constructor
  · intro rs hres r hr
    unfold fdbGetAll at hres
    rw [hdb] at hres
    dsimp only at hres
    rw [if_pos ⟨by simp [truthyStr, hf], hrole⟩] at hres
    injection hres with h
    rw [← h] at hr
    exact of_decide_eq_true (List.mem_filter.mp hr).2
  · unfold fdbGetAll
    rw [hdb]
    dsimp only
    rw [if_neg (by simp [truthyStr])]

/-- Witness for the C2 amended theorem: with a truthy `financerId = "t1"`
argument the filtered result contains `ownRecord`, whose `financerId` is
indeed `"t1"`; with a `null` argument the full store is returned. -/
theorem getAll_scopes_by_argument_only_witness :
    ownRecord.financerId = some "t1"
    ∧ fdbGetAll tenantState "customers" none = .ok (storeGet tenantState.stores "customers") :=
  ⟨(getAll_scopes_by_argument_only tenantState "customers" "t1" rfl (by decide)
      (by decide)).1 [ownRecord] (by decide) ownRecord (by decide),
   (getAll_scopes_by_argument_only tenantState "customers" "t1" rfl (by decide)
      (by decide)).2⟩

/-- C4 (amended): `FinanceDB.add` calls `logAudit` *before* issuing the
record insert, in a separate transaction: the audit entry is appended
whether or not the insert succeeds, and a failed insert leaves the record
stores untouched while the audit entry persists — the mutation and its
audit entry are not atomic. -/
theorem add_appends_audit_unconditionally (s : DBState) (name : String) (d : DBRecord)
    (now : Nat) (hdb : s.db = some ()) :
    (fdbAdd s name d now).1.audit
      = s.audit ++ [mkAuditEntry s.currentUser "ADD" name (addTargetId d) now]
    ∧ ∀ e, (fdbAdd s name d now).2 = .error e →
        (fdbAdd s name d now).1.stores = s.stores := by
  unfold fdbAdd
  rw [hdb]
  dsimp only
  by_cases hdup : (storeGet s.stores name).any (fun r => r.id = d.id)
  · rw [if_pos hdup]
    exact ⟨rfl, fun e _ => rfl⟩
  · rw [if_neg hdup]
    exact ⟨rfl, fun e he => Except.noConfusion he⟩

/-- Witness for the C4 amended theorem at the duplicate-key input: the
audit entry is appended and the stores are unchanged. -/
theorem add_appends_audit_unconditionally_witness :
    (fdbAdd dupState "customers" dupRecord 9).1.audit
      = dupState.audit
        ++ [mkAuditEntry dupState.currentUser "ADD" "customers" (addTargetId dupRecord) 9]
    ∧ (fdbAdd dupState "customers" dupRecord 9).1.stores = dupState.stores :=
  ⟨(add_appends_audit_unconditionally dupState "customers" dupRecord 9 rfl).1,
   (add_appends_audit_unconditionally dupState "customers" dupRecord 9 rfl).2
      .constraintError (by decide)⟩

/-- C4 counterexample: adding a record whose primary key already exists
fails with the constraint error, yet exactly one new audit entry persists
— refuting "if the mutation fails no audit entry remains". -/
theorem add_duplicate_fails_but_audit_persists :
    (fdbAdd dupState "customers" dupRecord 9).2 = .error .constraintError
    ∧ (fdbAdd dupState "customers" dupRecord 9).1.audit.length
        = dupState.audit.length + 1
    ∧ (fdbAdd dupState "customers" dupRecord 9).1.stores = dupState.stores := by
  decide

/-- C5 counterexample: for the `"t1"` tenant-owner, asking for an absent id
(`2`) and for an existing-but-foreign record (`3`, tenant `"t9"`) produce
*different* results: `'Customer not found'` versus `'Permission denied'` —
the two cases are caller-distinguishable. -/
theorem getCustomer_distinguishes_absent_from_denied :
    getCustomer (some financerOwner) [deniedCustomer] 2
      = ⟨false, some "Customer not found", none⟩
    ∧ getCustomer (some financerOwner) [deniedCustomer] 3
      = ⟨false, some "Permission denied", none⟩
    ∧ getCustomer (some financerOwner) [deniedCustomer] 2
      ≠ getCustomer (some financerOwner) [deniedCustomer] 3 := by
  decide

/-- C5 (amended): both the absent case and the exists-but-unauthorized case
of `CustomerManager.getCustomer` fail (`success = false`), but with
distinguishable messages: `'Customer not found'` when the lookup misses and
`'Permission denied'` when the record exists and `canAccessCustomer`
rejects it. -/
theorem getCustomer_absent_vs_denied_messages (u : Option User)
    (cs : List DBRecord) (i : Nat) :
    (fdbGet cs i = none →
      getCustomer u cs i = ⟨false, some "Customer not found", none⟩)
    ∧ ∀ c, fdbGet cs i = some c → canAccessCustomer u c = false →
        getCustomer u cs i = ⟨false, some "Permission denied", none⟩ := by
  constructor
  · intro h
    simp [getCustomer, h]
  · intro c hc hacc
    simp [getCustomer, hc, hacc]

/-- Witness for the C5 amended theorem at a concrete store and identity. -/
theorem getCustomer_absent_vs_denied_messages_witness :
    getCustomer (some financerOwner) [deniedCustomer] 4
      = ⟨false, some "Customer not found", none⟩
    ∧ getCustomer (some financerOwner) [deniedCustomer] 3
      = ⟨false, some "Permission denied", none⟩ :=
  ⟨(getCustomer_absent_vs_denied_messages (some financerOwner) [deniedCustomer] 4).1
      (by decide),
   (getCustomer_absent_vs_denied_messages (some financerOwner) [deniedCustomer] 3).2
      deniedCustomer (by decide) (by decide)⟩

/-- C6 counterexample: restoring a snapshot whose first record collides
with the live record aborts the whole restore: the result is the bare
boolean `false` (no restored/skipped/failed report), the live record is
left unchanged, and the snapshot's second record (id `8`), although
addable, is never replayed — conflicts abort, they are not skipped. -/
theorem restore_aborts_on_conflict :
    (fdbRestore conflictState 9 conflictBackup).2 = false
    ∧ storeGet (fdbRestore conflictState 9 conflictBackup).1.stores "customers"
        = [conflictLive] := by
  decide

/-- C6 (amended): `restore` replays each snapshot record as a create via
`add`, and a pre-existing live record is never overwritten: every record
present in a store before `restore` is still present afterwards. -/
theorem restore_never_overwrites (s : DBState) (backup : List (String × List DBRecord))
    (now : Nat) (name : String) (r : DBRecord) (h : r ∈ storeGet s.stores name) :
    r ∈ storeGet (fdbRestore s now backup).1.stores name :=
  fdbRestore_mem_preserved backup s now name r h

/-- Witness for the C6 amended theorem: the conflicting live record
survives the aborted restore. -/
theorem restore_never_overwrites_witness :
    conflictLive ∈ storeGet (fdbRestore conflictState 9 conflictBackup).1.stores "customers" :=
  restore_never_overwrites conflictState conflictBackup 9 "customers" conflictLive
    (by decide)

/-- C7: every storage call issued while `this.db` is still `null` (before
`open()` completes) fails by dereferencing the null handle — a raw
`TypeError`, not the spec's `NotReadyError`, and no call queues: `update`,
`getAll`, `delete` and `logAudit` have no readiness guard at all, and
`add`'s `await this.waitForReady()` sits syntactically malformed inside the
promise executor. -/
theorem prewait_calls_raise_null_handle :
    (fdbAdd unreadyState "customers" ⟨1, none, "", false, 0, none, none, none⟩ 3).2
      = .error .nullHandleTypeError
    ∧ fdbGetAll unreadyState "customers" none = .error .nullHandleTypeError
    ∧ (fdbUpdate unreadyState "customers" ⟨1, none, "", false, 0, none, none, none⟩ 3).2
      = .error .nullHandleTypeError
    ∧ (fdbDelete unreadyState "customers" 1 3).2 = .error .nullHandleTypeError
    ∧ (fdbLogAudit unreadyState "ADD" "customers" "1" 3).2 = .error .nullHandleTypeError
    ∧ DBError.nullHandleTypeError ≠ DBError.notReadyError := by
  refine ⟨rfl, rfl, rfl, rfl, rfl, by decide⟩

/-- C8 counterexample: the schema has six collections (`init` creates six
and `backup` exports six), but `runSelfHealing` checks only the five of
`selfHealStores`.  In a state where exactly one schema collection is
missing — `auditLog`, the unmonitored sixth — `runSelfHealing` changes
nothing at all: the version increments by 0, not 1, and the missing
collection is not provisioned, refuting the claim as stated over
"exactly one collection". -/
theorem selfHealing_ignores_missing_auditLog :
    schemaStores.filter (fun n => ¬ auditLogMissingState.storeNames.contains n)
      = ["auditLog"]
    ∧ runSelfHealing auditLogMissingState = auditLogMissingState := by
  decide

/-- C8 (amended): when the handle is open and exactly one of the five
*monitored* stores (`users`, `financers`, `customers`, `payments`,
`seizures`) is missing, `runSelfHealing` increments the schema version by
exactly 1 and the triggered re-`init` provisions every monitored store;
the sixth schema collection, `auditLog`, is outside the monitor's
checklist. -/
theorem selfHealing_bumps_version_by_one (s : DBState) (hdb : s.db = some ())
    (hone : (selfHealStores.filter (fun n => ¬ s.storeNames.contains n)).length = 1) :
    (runSelfHealing s).version = s.version + 1
    ∧ ∀ n ∈ selfHealStores, n ∈ (runSelfHealing s).storeNames := by
  unfold runSelfHealing
  rw [hdb]
  dsimp only
  have hne : ¬ ((selfHealStores.filter (fun n => ¬ s.storeNames.contains n)).isEmpty = true) := by
    intro hemp
    rw [List.isEmpty_iff] at hemp
    rw [hemp] at hone
    simp at hone
  rw [if_neg hne]
  constructor
  · show s.version + (selfHealStores.filter (fun n => ¬ s.storeNames.contains n)).length
      = s.version + 1
    rw [hone]
  · intro n hn
    simp only [fdbInit]
    exact insertStores_mem_of_mem schemaStores _ n (selfHeal_sub_schema n hn)

/-- Witness for the C8 amended theorem: with only `seizures` missing the
version goes from 3 to 4 and `seizures` is provisioned. -/
theorem selfHealing_bumps_version_by_one_witness :
    (runSelfHealing oneMissingState).version = oneMissingState.version + 1
    ∧ "seizures" ∈ (runSelfHealing oneMissingState).storeNames :=
  ⟨(selfHealing_bumps_version_by_one oneMissingState rfl (by decide)).1,
   (selfHealing_bumps_version_by_one oneMissingState rfl (by decide)).2
      "seizures" (by decide)⟩

/-- C10: with no authenticated identity (`this.currentUser` null) the
access filters fail closed: `applyRoleBasedFilter` returns the empty list
for every input and `canAccessCustomer` returns `false` for every record. -/
theorem null_identity_fails_closed :
    (∀ customers : List DBRecord, applyRoleBasedFilter none customers = [])
    ∧ ∀ c : DBRecord, canAccessCustomer none c = false :=
  ⟨fun _ => rfl, fun _ => rfl⟩
